import Mathlib

/-!
Shallow embedding of the YouTube-analysis pipeline (src/app.py) and proofs of
the frozen claims about it.

The embedding models:
 * `extract_video_id` — ordered regex search (the two patterns are literal
   alternations followed by a greedy capture of characters outside
   the class consisting of ampersand, newline, question mark, hash);
 * `get_video_info` — metadata normalisation with zero-value defaults;
 * `download_video_segment` — temp-file allocation plus best-effort download;
 * `analyze_with_gemini` — upload / poll / prompt / generate / parse with
   try-except-finally cleanup, modelled as a deterministic function of an
   environment describing the behaviour of the external services, returning
   the report, the trace of external calls, and the resulting filesystem;
 * `get_fallback_analysis` — the fixed fallback report;
 * the Python-side string processing: `str.strip`, single-pass
   `str.replace(pat, '')` and `json.loads`.

Machine-level effects (actual sockets, the real Gemini service, the real
filesystem) are represented by explicit environment records and event traces;
the local filesystem is a list of paths.
-/

/-- Characters that terminate the capture group of both URL patterns:
the regex class excludes ampersand, newline, question mark and hash. -/
def isStop (c : Char) : Bool :=
  c = '&' || c = '\n' || c = '?' || c = '#'

/-- Boolean list-prefix test (pattern, then text). -/
def isPre : List Char → List Char → Bool
  | [], _ => true
  | _ :: _, [] => false
  | a :: as, b :: bs => a = b && isPre as bs

/-- Alternation step of the regex engine at a fixed position: try each literal
alternative in order; on a literal match the greedy capture must be nonempty,
otherwise the engine backtracks to the next alternative. -/
def tryAltsAt : List (List Char) → List Char → Option (List Char)
  | [], _ => none
  | alt :: alts, s =>
    if isPre alt s then
      let cap := (s.drop alt.length).takeWhile (fun c => !isStop c)
      if cap.isEmpty then tryAltsAt alts s else some cap
    else tryAltsAt alts s

/-- `re.search` for one pattern: scan start positions left to right, at each
position try the alternatives in order, return the first capture. -/
def reSearchL (alts : List (List Char)) : List Char → Option (List Char)
  | [] => tryAltsAt alts []
  | c :: rest =>
    match tryAltsAt alts (c :: rest) with
    | some cap => some cap
    | none => reSearchL alts rest

/-- Alternatives of the first pattern, in source order. -/
def pat1alts : List (List Char) :=
  ["youtube.com/watch?v=".data, "youtu.be/".data, "youtube.com/embed/".data]

/-- Alternatives of the second pattern. -/
def pat2alts : List (List Char) :=
  ["youtube.com/v/".data]

/-- The ordered pattern list of `extract_video_id`. -/
def repatterns : List (List (List Char)) := [pat1alts, pat2alts]

/-- The source's loop: first pattern that matches wins. -/
def firstMatchL : List (List (List Char)) → List Char → Option (List Char)
  | [], _ => none
  | p :: ps, s =>
    match reSearchL p s with
    | some m => some m
    | none => firstMatchL ps s

/-- `YouTubeAnalyzer.extract_video_id`. -/
def extract_video_id (url : String) : Option String :=
  (firstMatchL repatterns url.data).map (fun cs => String.mk cs)

/-- The dataclass `VideoAnalysis`. -/
structure VideoAnalysis where
  video_id : String
  title : String
  description : String
  thumbnail_url : String
  duration : Nat
  view_count : Nat
  like_count : Nat
  comment_count : Nat
  upload_date : String
  channel_name : String
  tags : List String
deriving DecidableEq

/-- Provider response dictionary: each field the provider may omit is an
`Option` (`none` models an absent key in the info dict). -/
structure RawInfo where
  id : Option String := none
  title : Option String := none
  description : Option String := none
  thumbnail : Option String := none
  duration : Option Nat := none
  view_count : Option Nat := none
  like_count : Option Nat := none
  comment_count : Option Nat := none
  upload_date : Option String := none
  uploader : Option String := none
  tags : Option (List String) := none
deriving DecidableEq

/-- `YouTubeAnalyzer.get_video_info`: the provider either raises
(`Except.error`) or returns an info dict; every missing field defaults to the
zero value of its type, and a provider failure yields `none`. -/
def get_video_info (resp : Except Unit RawInfo) : Option VideoAnalysis :=
  match resp with
  | .error _ => none
  | .ok info =>
    some
      { video_id := info.id.getD ""
        title := info.title.getD ""
        description := info.description.getD ""
        thumbnail_url := info.thumbnail.getD ""
        duration := info.duration.getD 0
        view_count := info.view_count.getD 0
        like_count := info.like_count.getD 0
        comment_count := info.comment_count.getD 0
        upload_date := info.upload_date.getD ""
        channel_name := info.uploader.getD ""
        tags := info.tags.getD [] }

/-- Insert the thousands separators of Python's comma format spec into a
reversed digit list: a comma before every fourth, seventh, ... digit. -/
def commaRev : List Char → Nat → List Char
  | [], _ => []
  | c :: rest, cnt =>
    if cnt = 3 then ',' :: c :: commaRev rest 1 else c :: commaRev rest (cnt + 1)

/-- Python format `:,` on a natural number. -/
def fmtComma (n : Nat) : String :=
  String.mk (commaRev (Nat.toDigits 10 n).reverse 0).reverse

/-- Python string slice of the first `n` characters. -/
def strTake (s : String) (n : Nat) : String := String.mk (s.data.take n)

/-- Python `', '.join`. -/
def joinComma (ts : List String) : String := String.intercalate ", " ts

/-- JSON values as produced by the parse step. Numbers are kept exactly as a
decimal mantissa together with a power-of-ten exponent. -/
inductive PJson where
  | null : PJson
  | bool (b : Bool) : PJson
  | num (m : Int) (e : Int) : PJson
  | str (s : List Char) : PJson
  | arr (xs : List PJson) : PJson
  | obj (kvs : List (List Char × PJson)) : PJson

/-- JSON inter-token whitespace (exactly the four characters the JSON grammar
allows between tokens). -/
def isWsJ (c : Char) : Bool :=
  c = ' ' || c = '\t' || c = '\n' || c = '\r'

/-- Whitespace removed by Python's `str.strip()`: the full `str.isspace()`
repertoire (tab through carriage return, the information separators up to
space, next line, no-break space, Ogham space mark, the en-quad to hair-space
range, line and paragraph separators, narrow no-break space, medium
mathematical space, ideographic space). A strict superset of JSON
whitespace. -/
def isWsPy (c : Char) : Bool :=
  let n := c.toNat
  (9 ≤ n && n ≤ 13) || (28 ≤ n && n ≤ 32) || n = 0x85 || n = 0xa0 ||
    n = 0x1680 || (0x2000 ≤ n && n ≤ 0x200a) || n = 0x2028 || n = 0x2029 ||
    n = 0x202f || n = 0x205f || n = 0x3000

/-- Drop characters satisfying `p` from both ends of a list. -/
def trimWith (p : Char → Bool) (s : List Char) : List Char :=
  ((s.dropWhile p).reverse.dropWhile p).reverse

/-- Python `str.strip()`. -/
def pyStrip (s : List Char) : List Char := trimWith isWsPy s

/-- Trim with the JSON whitespace class (end-of-input tolerance of
`json.loads`). -/
def trimJ (s : List Char) : List Char := trimWith isWsJ s

/-- Skip JSON inter-token whitespace. -/
def skipWs (s : List Char) : List Char := s.dropWhile isWsJ

/-- Decimal digit test. -/
def isDig (c : Char) : Bool := '0' ≤ c && c ≤ '9'

/-- Value of a list of decimal digits. -/
def digitsVal (ds : List Char) : Nat :=
  ds.foldl (fun acc c => 10 * acc + (c.toNat - '0'.toNat)) 0

/-- Value of a hexadecimal digit, if the character is one (both cases are
accepted, per the JSON string grammar). -/
def hexDigitVal (c : Char) : Option Nat :=
  let n := c.toNat
  if 48 ≤ n && n ≤ 57 then some (n - 48)
  else
    let u := n % 32
    if (n ≥ 65 && n ≤ 70) || (n ≥ 97 && n ≤ 102) then some (u + 9)
    else none

/-- Strict JSON number grammar: optional minus, integer part without leading
zeros, optional fraction, optional exponent. Returns the value and the rest. -/
def parseNum (s : List Char) : Option (PJson × List Char) :=
  let (neg, s1) := match s with
    | '-' :: r => (true, r)
    | _ => (false, s)
  let ds := s1.takeWhile isDig
  let s2 := s1.drop ds.length
  if ds.isEmpty then none
  else if 1 < ds.length && ds.headD ' ' = '0' then none
  else
    let (fds, s3) := match s2 with
      | '.' :: r =>
        let f := r.takeWhile isDig
        (f, r.drop f.length)
      | _ => ([], s2)
    if (match s2 with | '.' :: _ => fds.isEmpty | _ => false) then none
    else
      let (eok, esign, eds, s4) := match s3 with
        | 'e' :: '+' :: r => (true, (1 : Int), r.takeWhile isDig, r.drop (r.takeWhile isDig).length)
        | 'e' :: '-' :: r => (true, (-1 : Int), r.takeWhile isDig, r.drop (r.takeWhile isDig).length)
        | 'e' :: r => (true, (1 : Int), r.takeWhile isDig, r.drop (r.takeWhile isDig).length)
        | 'E' :: '+' :: r => (true, (1 : Int), r.takeWhile isDig, r.drop (r.takeWhile isDig).length)
        | 'E' :: '-' :: r => (true, (-1 : Int), r.takeWhile isDig, r.drop (r.takeWhile isDig).length)
        | 'E' :: r => (true, (1 : Int), r.takeWhile isDig, r.drop (r.takeWhile isDig).length)
        | _ => (false, (1 : Int), [], s3)
      if eok && eds.isEmpty then none
      else
        let m : Int := (if neg then -1 else 1) * (digitsVal (ds ++ fds) : Int)
        let ex : Int := esign * (digitsVal eds : Int) - (fds.length : Int)
        some (.num m ex, s4)

/-- Recursion modes of the fuel-driven JSON parser: a value, the items of an
array after the opening bracket, the members of an object after the opening
brace, or the body of a string literal after the opening quote. -/
inductive PMode where
  | val : PMode
  | items : PMode
  | members : PMode
  | strs : PMode

/-- Results of the parser modes. -/
inductive POut where
  | v (j : PJson) : POut
  | vs (js : List PJson) : POut
  | kvs (l : List (List Char × PJson)) : POut
  | chars (cs : List Char) : POut

/-- Recursive-descent JSON parser, structurally recursive on fuel. -/
def parseF : Nat → PMode → List Char → Option (POut × List Char)
  | 0, _, _ => none
  | fuel + 1, .val, s =>
    let s := skipWs s
    match s with
    | 'n' :: 'u' :: 'l' :: 'l' :: r => some (.v .null, r)
    | 't' :: 'r' :: 'u' :: 'e' :: r => some (.v (.bool true), r)
    | 'f' :: 'a' :: 'l' :: 's' :: 'e' :: r => some (.v (.bool false), r)
    | '"' :: r =>
      match parseF fuel .strs r with
      | some (.chars cs, r') => some (.v (.str cs), r')
      | _ => none
    | '[' :: r =>
      match skipWs r with
      | ']' :: r2 => some (.v (.arr []), r2)
      | r1 =>
        match parseF fuel .items r1 with
        | some (.vs js, r') => some (.v (.arr js), r')
        | _ => none
    | '{' :: r =>
      match skipWs r with
      | '}' :: r2 => some (.v (.obj []), r2)
      | r1 =>
        match parseF fuel .members r1 with
        | some (.kvs l, r') => some (.v (.obj l), r')
        | _ => none
    | _ =>
      match parseNum s with
      | some (j, r) => some (.v j, r)
      | none => none
  | fuel + 1, .items, s =>
    match parseF fuel .val s with
    | some (.v j, r) =>
      match skipWs r with
      | ',' :: r2 =>
        match parseF fuel .items r2 with
        | some (.vs js, r') => some (.vs (j :: js), r')
        | _ => none
      | ']' :: r2 => some (.vs [j], r2)
      | _ => none
    | _ => none
  | fuel + 1, .members, s =>
    match skipWs s with
    | '"' :: r =>
      match parseF fuel .strs r with
      | some (.chars k, r1) =>
        match skipWs r1 with
        | ':' :: r2 =>
          match parseF fuel .val r2 with
          | some (.v j, r3) =>
            match skipWs r3 with
            | ',' :: r4 =>
              match parseF fuel .members r4 with
              | some (.kvs l, r') => some (.kvs ((k, j) :: l), r')
              | _ => none
            | '}' :: r4 => some (.kvs [(k, j)], r4)
            | _ => none
          | _ => none
        | _ => none
      | _ => none
    | _ => none
  | fuel + 1, .strs, s =>
    match s with
    | '"' :: r => some (.chars [], r)
    | '\\' :: e :: r =>
      if e = 'u' then
        match r with
        | h1 :: h2 :: h3 :: h4 :: r' =>
          match hexDigitVal h1, hexDigitVal h2, hexDigitVal h3, hexDigitVal h4 with
          | some a, some b, some c, some d =>
            match parseF fuel .strs r' with
            | some (.chars cs, r'') =>
              some (.chars (Char.ofNat (((a * 16 + b) * 16 + c) * 16 + d) :: cs), r'')
            | _ => none
          | _, _, _, _ => none
        | _ => none
      else
        match
          (if e = '"' then some '"'
           else if e = '\\' then some '\\'
           else if e = '/' then some '/'
           else if e = 'b' then some '\x08'
           else if e = 'f' then some '\x0c'
           else if e = 'n' then some '\n'
           else if e = 'r' then some '\r'
           else if e = 't' then some '\t'
           else none) with
        | some c =>
          match parseF fuel .strs r with
          | some (.chars cs, r'') => some (.chars (c :: cs), r'')
          | _ => none
        | none => none
    | c :: r =>
      if c.toNat < 32 then none
      else
        match parseF fuel .strs r with
        | some (.chars cs, r'') => some (.chars (c :: cs), r'')
        | _ => none
    | [] => none

/-- Parse a whole document: one value, then only whitespace may remain. -/
def parseTop (t : List Char) : Option PJson :=
  match parseF (2 * t.length + 4) .val t with
  | some (.v j, r) => if skipWs r = [] then some j else none
  | _ => none

/-- `json.loads` on a character list: tolerant of surrounding JSON whitespace
(leading whitespace is skipped by the scanner; trailing whitespace is allowed
after the document), strict otherwise. -/
def jsonLoadsL (s : List Char) : Option PJson := parseTop (trimJ s)

/-- Single pass of Python `str.replace(pat, '')` with fuel: scan left to
right, removing non-overlapping occurrences of `pat`. -/
def removeAllF (pat : List Char) : Nat → List Char → List Char
  | 0, s => s
  | _ + 1, [] => []
  | fuel + 1, c :: rest =>
    if !pat.isEmpty && isPre pat (c :: rest) then
      removeAllF pat fuel (rest.drop (pat.length - 1))
    else c :: removeAllF pat fuel rest

/-- Python `str.replace(pat, '')` for a nonempty pattern. -/
def removeAll (pat : List Char) (s : List Char) : List Char :=
  removeAllF pat s.length s

/-- The first fence pattern removed by the source. -/
def patJson : List Char := "```json".data

/-- The second fence pattern removed by the source. -/
def pat3 : List Char := "```".data

/-- The source's response post-processing:
`response.text.strip().replace('```json', '').replace('```', '')`. -/
def cleanL (s : List Char) : List Char :=
  removeAll pat3 (removeAll patJson (pyStrip s))

/-- Wrap a text in the Markdown code fences the model emits. -/
def fenceL (c : List Char) : List Char :=
  "```json\n".data ++ c ++ "\n```".data

/-- Prompt text before the title interpolation. -/
def pSeg0 : String := "\n            Bạn là chuyên gia phân tích YouTube. Hãy phân tích video này và đưa ra điểm số chi tiết:\n\n            THÔNG TIN VIDEO:\n            - Tiêu đề: "

/-- Prompt text between title and truncated description. -/
def pSeg1 : String := "\n            - Mô tả: "

/-- Prompt text between description and channel name. -/
def pSeg2 : String := "...\n            - Kênh: "

/-- Prompt text between channel name and joined tags. -/
def pSeg3 : String := "\n            - Tags: "

/-- Prompt text between tags and view count. -/
def pSeg4 : String := "\n            - Lượt xem: "

/-- Prompt text between view count and like count. -/
def pSeg5 : String := "\n            - Lượt thích: "

/-- Instruction to score the six categories on a 0-100 scale. -/
def pInstr1 : String := "1. Đánh giá từng yếu tố (0-100 điểm): Thumbnail, Tiêu đề, Mô tả, Tags, Engagement, SEO tổng thể."

/-- Instruction to list prioritized improvements. -/
def pInstr2 : String := "2. Gợi ý cải thiện cụ thể (ưu tiên cao/trung/thấp)."

/-- Instruction to predict a 0-100 viral-potential score. -/
def pInstr3 : String := "3. Dự đoán tiềm năng viral (0-100)."

/-- Instruction to answer as strict JSON in the fixed schema. -/
def pInstr4 : String := "Trả về định dạng JSON nghiêm ngặt theo cấu trúc sau:"

/-- First line of the fixed JSON schema in the prompt. -/
def pSchema1 : String := "\"overall_score\": 0, \"scores\": \x7b\"thumbnail\": 0, \"title\": 0, \"description\": 0, \"tags\": 0, \"engagement\": 0, \"seo\": 0\x7d,"

/-- Second line of the fixed JSON schema in the prompt. -/
def pSchema2 : String := "\"improvements\": [\x7b\"category\": \"string\", \"priority\": \"high/medium/low\", \"suggestion\": \"string\", \"impact\": \"string\"\x7d],"

/-- Third line of the fixed JSON schema in the prompt. -/
def pSchema3 : String := "\"viral_potential\": 0, \"strengths\": [\"string\"], \"weaknesses\": [\"string\"]"

/-- Prompt text between like count and the first instruction. -/
def pSeg6 : String := "\n\n            PHÂN TÍCH YÊU CẦU:\n            "

/-- Line break and indentation between instructions. -/
def pSegNL : String := "\n            "

/-- Blank line before the strict-JSON instruction. -/
def pSeg7 : String := "\n\n            "

/-- Opening of the schema block. -/
def pSeg8 : String := "\n            \x7b\n                "

/-- Line break inside the schema block. -/
def pSeg9 : String := "\n                "

/-- Closing of the schema block and of the prompt. -/
def pSeg10 : String := "\n            \x7d\n            "

/-- The structured prompt of `analyze_with_gemini` (the f-string of the
source, with the metadata interpolated exactly as the source does). -/
def buildPrompt (vi : VideoAnalysis) : String :=
  pSeg0 ++ vi.title ++ pSeg1 ++ strTake vi.description 500 ++ pSeg2 ++ vi.channel_name ++
  pSeg3 ++ joinComma (vi.tags.take 10) ++ pSeg4 ++ fmtComma vi.view_count ++ pSeg5 ++
  fmtComma vi.like_count ++ pSeg6 ++ pInstr1 ++ pSegNL ++ pInstr2 ++ pSegNL ++ pInstr3 ++
  pSeg7 ++ pInstr4 ++ pSeg8 ++ pSchema1 ++ pSeg9 ++ pSchema2 ++ pSeg9 ++ pSchema3 ++ pSeg10

/-- The fallback report of `get_fallback_analysis`, key for key. -/
def get_fallback_analysis : PJson :=
  .obj
    [("error".data, .str "Failed to analyze with Gemini, providing fallback data.".data),
     ("overall_score".data, .num 0 0),
     ("scores".data, .obj []),
     ("improvements".data, .arr []),
     ("viral_potential".data, .num 0 0),
     ("strengths".data, .arr []),
     ("weaknesses".data, .arr [])]

/-- Processing state of a remote upload handle. -/
inductive FState where
  | processing : FState
  | ready : FState
  | failed : FState
deriving DecidableEq

/-- A remote upload handle: its service-side name and its current state. -/
structure UFile where
  name : String
  st : FState
deriving DecidableEq

/-- Observable external calls of the pipeline. -/
inductive Ev where
  | upload (path : String) : Ev
  | sleep (n : Nat) : Ev
  | getFile (name : String) : Ev
  | generate (prompt : String) (withFile : Bool) : Ev
  | unlink (path : String) : Ev
  | deleteRemote (name : String) : Ev
  | download : Ev
  | orchCall (sample : Option String) : Ev
deriving DecidableEq

/-- Event classifiers used for counting calls. -/
def isUnlinkEv : Ev → Bool
  | .unlink _ => true
  | _ => false

/-- Remote delete classifier. -/
def isDeleteEv : Ev → Bool
  | .deleteRemote _ => true
  | _ => false

/-- Upload-call classifier. -/
def isUploadEv : Ev → Bool
  | .upload _ => true
  | _ => false

/-- Download-call classifier. -/
def isDownloadEv : Ev → Bool
  | .download => true
  | _ => false

/-- Poll re-fetch classifier. -/
def isGetFileEv : Ev → Bool
  | .getFile _ => true
  | _ => false

/-- Behaviour of the remote generative-analysis service for one call, as seen
by `analyze_with_gemini`: what the upload returns (or raises), what each
successive `get_file` poll returns (or raises), and what the generation call
returns (or raises). -/
structure GEnv where
  uploadResult : Except Unit UFile
  pollSupply : List (Except Unit UFile)
  generateResult : Except Unit String

/-- The while loop of the orchestrator: while the current handle reports
PROCESSING, sleep the fixed 2-unit interval and re-fetch. Returns `none` when
the supply of poll answers is exhausted while still PROCESSING (the loop would
run forever); otherwise the loop outcome (`error` when a re-fetch raised),
the last successfully obtained handle, and the trace. -/
def pollLoop : List (Except Unit UFile) → UFile → Option (Except Unit UFile × UFile × List Ev)
  | supply, f =>
    if f.st = .processing then
      match supply with
      | [] => none
      | .error _ :: _ => some (.error (), f, [Ev.sleep 2, Ev.getFile f.name])
      | .ok g :: rest =>
        match pollLoop rest g with
        | none => none
        | some (out, last, evs) => some (out, last, Ev.sleep 2 :: Ev.getFile f.name :: evs)
    else some (.ok f, f, [])

/-- Outcome of the generation-and-parse tail of the try block: `error` when
the generation call raises or the cleaned response is not valid JSON. -/
def genResOf (env : GEnv) : Except Unit PJson :=
  match env.generateResult with
  | .error _ => .error ()
  | .ok t =>
    match jsonLoadsL (cleanL t.data) with
    | none => .error ()
    | some j => .ok j

/-- Steps 4-6 of the try block: build the prompt, call generation (with the
file reference when a handle is held), parse. Returns the handle for cleanup,
the body outcome, and the extended trace. -/
def afterUpload (env : GEnv) (vi : VideoAnalysis) (handle : Option UFile) (evs : List Ev) :
    Option UFile × Except Unit PJson × List Ev :=
  (handle, genResOf env, evs ++ [Ev.generate (buildPrompt vi) handle.isSome])

/-- The whole try block of `analyze_with_gemini`: upload when a sample path is
present and exists, poll to a terminal state, treat FAILED as a raise, then
generate and parse. `none` means the poll loop never terminates. -/
def tryBody (env : GEnv) (vi : VideoAnalysis) (vp : Option String) (fs : List String) :
    Option (Option UFile × Except Unit PJson × List Ev) :=
  match vp with
  | none => some (afterUpload env vi none [])
  | some p =>
    if p ∈ fs then
      match env.uploadResult with
      | .error _ => some (none, .error (), [Ev.upload p])
      | .ok f0 =>
        match pollLoop env.pollSupply f0 with
        | none => none
        | some (.error _, last, pevs) => some (some last, .error (), Ev.upload p :: pevs)
        | some (.ok f, _, pevs) =>
          if f.st = .failed then some (some f, .error (), Ev.upload p :: pevs)
          else some (afterUpload env vi (some f) (Ev.upload p :: pevs))
    else some (afterUpload env vi none [])

/-- The finally block: delete the local sample if it exists, then delete the
remote file if a handle was obtained. Returns its trace and the new
filesystem. -/
def cleanupFin (vp : Option String) (fs : List String) (handle : Option UFile) :
    List Ev × List String :=
  let lfin : List Ev × List String :=
    match vp with
    | some p => if p ∈ fs then ([Ev.unlink p], fs.filter (fun q => q != p)) else ([], fs)
    | none => ([], fs)
  match handle with
  | some f => (lfin.1 ++ [Ev.deleteRemote f.name], lfin.2)
  | none => lfin

/-- `YouTubeAnalyzer.analyze_with_gemini`: the try/except/finally. Returns the
report, the full trace and the final filesystem; `none` when the poll loop
never terminates (no exit path is taken). -/
def analyze_with_gemini (env : GEnv) (vi : VideoAnalysis) (vp : Option String)
    (fs : List String) : Option (PJson × List Ev × List String) :=
  match tryBody env vi vp fs with
  | none => none
  | some (handle, res, evs) =>
    let fin := cleanupFin vp fs handle
    some ((match res with | .ok j => j | .error _ => get_fallback_analysis),
          evs ++ fin.1, fin.2)

/-- Behaviour of the downloader for one `download_video_segment` call: the
fresh temporary name the OS hands out, and whether the download raises. -/
structure DlEnv where
  tempName : String
  dlResult : Except Unit Unit

/-- `YouTubeAnalyzer.download_video_segment`: allocate the temporary file
(`delete=False`, so it persists), run the external download into it, return
the path on success and `none` on failure. No branch removes the file. -/
def download_video_segment (env : DlEnv) (fs : List String) :
    Option String × List Ev × List String :=
  let fs1 := fs ++ [env.tempName]
  match env.dlResult with
  | .error _ => (none, [Ev.download], fs1)
  | .ok _ => (some env.tempName, [Ev.download], fs1)

/-- External behaviour for one request to the `/api/analyze` endpoint. -/
structure WebEnv where
  info : Except Unit RawInfo
  dl : DlEnv
  gem : GEnv

/-- A successful endpoint response body. -/
structure RespOk where
  video_info : VideoAnalysis
  analysis : PJson

/-- The `/api/analyze` handler `analyze_video`: URL presence and validity
checks, metadata fetch, optional sampling, then the orchestrator. Errors are
`(message, status)` pairs; `none` again means the poll loop never ends. -/
def analyze_video (env : WebEnv) (reqUrl : Option String) (analyzeContent : Bool)
    (fs : List String) : Option (Except (String × Nat) RespOk × List Ev × List String) :=
  match reqUrl with
  | none => some (.error ("URL is required", 400), [], fs)
  | some url =>
    if url = "" then some (.error ("URL is required", 400), [], fs)
    else
      match extract_video_id url with
      | none => some (.error ("Invalid YouTube URL", 400), [], fs)
      | some _ =>
        match get_video_info env.info with
        | none => some (.error ("Failed to extract video information", 400), [], fs)
        | some vi =>
          let dl := if analyzeContent then download_video_segment env.dl fs
                    else (none, [], fs)
          match analyze_with_gemini env.gem vi dl.1 dl.2.2 with
          | none => none
          | some (res, evs2, fs2) =>
            some (.ok ⟨vi, res⟩, dl.2.1 ++ Ev.orchCall dl.1 :: evs2, fs2)

/-- Type tags of JSON values. -/
inductive JTag where
  | tnull : JTag
  | tbool : JTag
  | tnum : JTag
  | tstr : JTag
  | tarr : JTag
  | tobj : JTag
deriving DecidableEq

/-- The type tag of a JSON value. -/
def PJson.tag : PJson → JTag
  | .null => .tnull
  | .bool _ => .tbool
  | .num _ _ => .tnum
  | .str _ => .tstr
  | .arr _ => .tarr
  | .obj _ => .tobj

/-- Top-level shape of an object value: its keys, in order, each with the
type tag of its value. -/
def topShape : PJson → Option (List (List Char × JTag))
  | .obj kvs => some (kvs.map (fun kv => (kv.1, kv.2.tag)))
  | _ => none

/-- Remove one key from an object value. -/
def removeKey (k : List Char) : PJson → PJson
  | .obj kvs => .obj (kvs.filter (fun kv => !(kv.1 == k)))
  | j => j

/-- Look a key up in an object value. -/
def lookupKey (k : List Char) : PJson → Option PJson
  | .obj kvs => (kvs.find? (fun kv => kv.1 == k)).map (fun kv => kv.2)
  | _ => none

/-- The fixed success schema demanded by the prompt (the JSON literal of the
prompt's schema block, with its placeholder values). -/
def schemaTemplate : PJson :=
  .obj
    [("overall_score".data, .num 0 0),
     ("scores".data, .obj
        [("thumbnail".data, .num 0 0), ("title".data, .num 0 0),
         ("description".data, .num 0 0), ("tags".data, .num 0 0),
         ("engagement".data, .num 0 0), ("seo".data, .num 0 0)]),
     ("improvements".data, .arr
        [.obj [("category".data, .str "string".data),
               ("priority".data, .str "high/medium/low".data),
               ("suggestion".data, .str "string".data),
               ("impact".data, .str "string".data)]]),
     ("viral_potential".data, .num 0 0),
     ("strengths".data, .arr [.str "string".data]),
     ("weaknesses".data, .arr [.str "string".data])]

/-- C3: `extract_video_id` applies its patterns in listed order and returns
the capture group of the first pattern that matches, even when a later
pattern would also match, and returns `none` when no pattern matches. The
function is a pure function of the URL (no side effects in the model). -/
theorem C3_first_pattern_wins (url : String) :
    (∀ v, reSearchL pat1alts url.data = some v →
      extract_video_id url = some (String.mk v))
  ∧ (reSearchL pat1alts url.data = none →
      ∀ v, reSearchL pat2alts url.data = some v →
        extract_video_id url = some (String.mk v))
  ∧ (reSearchL pat1alts url.data = none → reSearchL pat2alts url.data = none →
      extract_video_id url = none) := by
  refine ⟨fun v h => ?_, fun h1 v h2 => ?_, fun h1 h2 => ?_⟩
  · simp [extract_video_id, repatterns, firstMatchL, h]
  · simp [extract_video_id, repatterns, firstMatchL, h1, h2]
  · simp [extract_video_id, repatterns, firstMatchL, h1, h2]

/-- Witness for C3 at a URL matched by both patterns with different captures:
the first pattern's capture wins. -/
theorem C3_first_pattern_wins_witness :
    reSearchL pat1alts "youtube.com/embed/a?youtube.com/v/b".data = some ['a']
  ∧ reSearchL pat2alts "youtube.com/embed/a?youtube.com/v/b".data = some ['b']
  ∧ extract_video_id "youtube.com/embed/a?youtube.com/v/b" = some "a" := by
  refine ⟨by decide, by decide, ?_⟩
  exact (C3_first_pattern_wins "youtube.com/embed/a?youtube.com/v/b").1 ['a'] (by decide)

/-- C4: `get_video_info` fills every omitted scalar field with its type's
zero value (0 for the counts and the duration, empty string for text fields,
empty list for tags) — in particular an omitted view count becomes 0 — it
never fails merely because optional metadata is missing, and a provider
failure yields `none` instead of an exception. -/
theorem C4_metadata_defaults (resp : Except Unit RawInfo) :
    (∀ info, resp = .ok info → ∃ va, get_video_info resp = some va ∧
        va.view_count = info.view_count.getD 0 ∧
        (info.view_count = none → va.view_count = 0) ∧
        (info.title = none → va.title = "") ∧
        (info.description = none → va.description = "") ∧
        (info.thumbnail = none → va.thumbnail_url = "") ∧
        (info.duration = none → va.duration = 0) ∧
        (info.like_count = none → va.like_count = 0) ∧
        (info.comment_count = none → va.comment_count = 0) ∧
        (info.upload_date = none → va.upload_date = "") ∧
        (info.uploader = none → va.channel_name = "") ∧
        (info.tags = none → va.tags = []))
  ∧ (∀ e, resp = .error e → get_video_info resp = none) := by
  constructor
  · rintro info rfl
    refine ⟨_, rfl, rfl, ?_, ?_, ?_, ?_, ?_, ?_, ?_, ?_, ?_, ?_⟩ <;>
      (intro h; simp [h])
  · rintro e rfl
    rfl

/-- Witness for C4: a provider response with every optional field omitted
still yields a metadata record, and its view count is 0. -/
theorem C4_metadata_defaults_witness :
    ∃ va, get_video_info (.ok ({} : RawInfo)) = some va ∧ va.view_count = 0 := by
  obtain ⟨va, hva, -, h0, -⟩ :=
    (C4_metadata_defaults (.ok ({} : RawInfo))).1 {} rfl
  exact ⟨va, hva, h0 rfl⟩

/-- C6: the fallback report is structurally identical to the genuine success
schema: removing its error marker leaves exactly the keys overall_score,
scores, improvements, viral_potential, strengths, weaknesses with the same
type tags and in the same order as the fixed schema of the prompt, and the
error marker itself is a string. -/
theorem C6_fallback_shape :
    topShape (removeKey "error".data get_fallback_analysis) = topShape schemaTemplate
  ∧ lookupKey "error".data get_fallback_analysis =
      some (.str "Failed to analyze with Gemini, providing fallback data.".data) := by
  constructor
  · rfl
  · rfl

/-- A string split around an explicit middle factor. -/
theorem embed_here (x s : String) : ∃ a b, x ++ s = a ++ (x ++ b) :=
  ⟨"", s, by simp⟩

/-- Prepending preserves having a middle factor. -/
theorem embed_left {x s : String} (t : String) (h : ∃ a b, s = a ++ (x ++ b)) :
    ∃ a b, t ++ s = a ++ (x ++ b) := by
  obtain ⟨a, b, rfl⟩ := h
  exact ⟨t ++ a, b, by simp [String.append_assoc]⟩

/-- C9: the prompt embeds the title, the description truncated to its first
500 characters, the channel name, the first 10 tags joined by commas, the
view count and the like count, together with the literal instructions to
score the six categories 0-100 (`pInstr1`), list prioritized improvements
(`pInstr2`, with the category/priority/suggestion/impact record shape in
`pSchema2`), give a 0-100 viral-potential score (`pInstr3`), and answer as
strict JSON in the fixed schema (`pInstr4`, `pSchema1`-`pSchema3`). -/
theorem C9_prompt_contents (vi : VideoAnalysis) :
    (∃ a b, buildPrompt vi = a ++ vi.title ++ b)
  ∧ (∃ a b, buildPrompt vi = a ++ strTake vi.description 500 ++ b)
  ∧ (∃ a b, buildPrompt vi = a ++ vi.channel_name ++ b)
  ∧ (∃ a b, buildPrompt vi = a ++ joinComma (vi.tags.take 10) ++ b)
  ∧ (∃ a b, buildPrompt vi = a ++ fmtComma vi.view_count ++ b)
  ∧ (∃ a b, buildPrompt vi = a ++ fmtComma vi.like_count ++ b)
  ∧ (∃ a b, buildPrompt vi = a ++ pInstr1 ++ b)
  ∧ (∃ a b, buildPrompt vi = a ++ pInstr2 ++ b)
  ∧ (∃ a b, buildPrompt vi = a ++ pInstr3 ++ b)
  ∧ (∃ a b, buildPrompt vi = a ++ pInstr4 ++ b)
  ∧ (∃ a b, buildPrompt vi = a ++ pSchema1 ++ b)
  ∧ (∃ a b, buildPrompt vi = a ++ pSchema2 ++ b)
  ∧ (∃ a b, buildPrompt vi = a ++ pSchema3 ++ b) := by
  constructor
  · simp only [buildPrompt, String.append_assoc]
    repeat (first | exact embed_here _ _ | apply embed_left)
  constructor
  · simp only [buildPrompt, String.append_assoc]
    repeat (first | exact embed_here _ _ | apply embed_left)
  constructor
  · simp only [buildPrompt, String.append_assoc]
    repeat (first | exact embed_here _ _ | apply embed_left)
  constructor
  · simp only [buildPrompt, String.append_assoc]
    repeat (first | exact embed_here _ _ | apply embed_left)
  constructor
  · simp only [buildPrompt, String.append_assoc]
    repeat (first | exact embed_here _ _ | apply embed_left)
  constructor
  · simp only [buildPrompt, String.append_assoc]
    repeat (first | exact embed_here _ _ | apply embed_left)
  constructor
  · simp only [buildPrompt, String.append_assoc]
    repeat (first | exact embed_here _ _ | apply embed_left)
  constructor
  · simp only [buildPrompt, String.append_assoc]
    repeat (first | exact embed_here _ _ | apply embed_left)
  constructor
  · simp only [buildPrompt, String.append_assoc]
    repeat (first | exact embed_here _ _ | apply embed_left)
  constructor
  · simp only [buildPrompt, String.append_assoc]
    repeat (first | exact embed_here _ _ | apply embed_left)
  constructor
  · simp only [buildPrompt, String.append_assoc]
    repeat (first | exact embed_here _ _ | apply embed_left)
  constructor
  · simp only [buildPrompt, String.append_assoc]
    repeat (first | exact embed_here _ _ | apply embed_left)
  · simp only [buildPrompt, String.append_assoc]
    repeat (first | exact embed_here _ _ | apply embed_left)

/-- Whether the upload call happens and succeeds: a sample path is present,
the file exists, and the upload does not raise. -/
def uploadHappens (env : GEnv) (vp : Option String) (fs : List String) : Bool :=
  match vp with
  | some p => decide (p ∈ fs) && (match env.uploadResult with
      | .ok _ => true
      | .error _ => false)
  | none => false

/-- Number of local cleanups the finally block must perform. -/
def localCleanups (vp : Option String) (fs : List String) : Nat :=
  match vp with
  | some p => if p ∈ fs then 1 else 0
  | none => 0

/-- Number of successful upload calls in one orchestrator run. -/
def uploadOkCount (env : GEnv) (vp : Option String) (fs : List String) : Nat :=
  if uploadHappens env vp fs then 1 else 0

/-- Events emitted by the poll loop are only sleeps and re-fetches. -/
theorem pollLoop_evs_shape (supply : List (Except Unit UFile)) :
    ∀ (f : UFile) out last pevs,
      pollLoop supply f = some (out, last, pevs) →
      ∀ e ∈ pevs, (∃ n, e = Ev.sleep n) ∨ (∃ nm, e = Ev.getFile nm) := by
  induction supply with
  | nil =>
    intro f out last pevs h e he
    rw [pollLoop.eq_def] at h
    by_cases hst : f.st = .processing
    · simp [hst] at h
    · simp [hst] at h
      obtain ⟨-, -, h3⟩ := h
      subst h3
      simp at he
  | cons hd tl ih =>
    intro f out last pevs h e he
    rw [pollLoop.eq_def] at h
    by_cases hst : f.st = .processing
    · cases hd with
      | error u =>
        simp [hst] at h
        obtain ⟨-, -, h3⟩ := h
        subst h3
        simp at he
        rcases he with rfl | rfl
        · exact .inl ⟨2, rfl⟩
        · exact .inr ⟨f.name, rfl⟩
      | ok g =>
        simp [hst] at h
        cases hpl : pollLoop tl g with
        | none => rw [hpl] at h; simp at h
        | some trip =>
          obtain ⟨out', last', evs'⟩ := trip
          rw [hpl] at h
          simp at h
          obtain ⟨-, -, h3⟩ := h
          subst h3
          simp at he
          rcases he with rfl | rfl | hmem
          · exact .inl ⟨2, rfl⟩
          · exact .inr ⟨f.name, rfl⟩
          · exact ih g out' last' evs' hpl e hmem
    · simp [hst] at h
      obtain ⟨-, -, h3⟩ := h
      subst h3
      simp at he

/-- The try block emits no cleanup or download events, holds a handle exactly
when the upload happened and succeeded, and only succeeds with the
generation-and-parse outcome. -/
theorem tryBody_spec (env : GEnv) (vi : VideoAnalysis) (vp : Option String)
    (fs : List String) (handle : Option UFile) (res : Except Unit PJson)
    (bevs : List Ev) (h : tryBody env vi vp fs = some (handle, res, bevs)) :
    (∀ e ∈ bevs, isUnlinkEv e = false ∧ isDeleteEv e = false ∧ isDownloadEv e = false)
  ∧ handle.isSome = uploadHappens env vp fs
  ∧ (∀ j, res = .ok j → genResOf env = .ok j) := by
  have hshape : ∀ (supply : List (Except Unit UFile)) (f : UFile) out last pevs,
      pollLoop supply f = some (out, last, pevs) →
      ∀ e ∈ pevs, isUnlinkEv e = false ∧ isDeleteEv e = false ∧ isDownloadEv e = false := by
    intro supply f out last pevs hp e he
    rcases pollLoop_evs_shape supply f out last pevs hp e he with ⟨n, rfl⟩ | ⟨nm, rfl⟩ <;>
      simp [isUnlinkEv, isDeleteEv, isDownloadEv]
  cases vp with
  | none =>
    simp [tryBody, afterUpload] at h
    obtain ⟨h1, h2, h3⟩ := h
    subst h1; subst h2; subst h3
    refine ⟨?_, by simp [uploadHappens], ?_⟩
    · intro e he
      simp at he
      subst he
      simp [isUnlinkEv, isDeleteEv, isDownloadEv]
    · intro j hj
      exact hj ▸ rfl
  | some p =>
    by_cases hp : p ∈ fs
    · simp only [tryBody, if_pos hp] at h
      cases hup : env.uploadResult with
      | error u =>
        simp only [hup] at h
        simp at h
        obtain ⟨h1, h2, h3⟩ := h
        subst h1; subst h2; subst h3
        refine ⟨?_, by simp [uploadHappens, hp, hup], ?_⟩
        · intro e he
          simp at he
          subst he
          simp [isUnlinkEv, isDeleteEv, isDownloadEv]
        · intro j hj
          cases hj
      | ok f0 =>
        simp only [hup] at h
        cases hpl : pollLoop env.pollSupply f0 with
        | none => simp only [hpl] at h; simp at h
        | some trip =>
          obtain ⟨out, last, pevs⟩ := trip
          simp only [hpl] at h
          cases out with
          | error u =>
            simp at h
            obtain ⟨h1, h2, h3⟩ := h
            subst h1; subst h2; subst h3
            refine ⟨?_, by simp [uploadHappens, hp, hup], ?_⟩
            · intro e he
              simp at he
              rcases he with rfl | hmem
              · simp [isUnlinkEv, isDeleteEv, isDownloadEv]
              · exact hshape _ _ _ _ _ hpl e hmem
            · intro j hj
              cases hj
          | ok f =>
            by_cases hf : f.st = .failed
            · simp [hf] at h
              obtain ⟨h1, h2, h3⟩ := h
              subst h1; subst h2; subst h3
              refine ⟨?_, by simp [uploadHappens, hp, hup], ?_⟩
              · intro e he
                simp at he
                rcases he with rfl | hmem
                · simp [isUnlinkEv, isDeleteEv, isDownloadEv]
                · exact hshape _ _ _ _ _ hpl e hmem
              · intro j hj
                cases hj
            · simp [hf, afterUpload] at h
              obtain ⟨h1, h2, h3⟩ := h
              subst h1; subst h2; subst h3
              refine ⟨?_, by simp [uploadHappens, hp, hup], ?_⟩
              · intro e he
                simp at he
                rcases he with rfl | hmem | rfl
                · simp [isUnlinkEv, isDeleteEv, isDownloadEv]
                · exact hshape _ _ _ _ _ hpl e hmem
                · simp [isUnlinkEv, isDeleteEv, isDownloadEv]
              · intro j hj
                exact hj ▸ rfl
    · simp only [tryBody, if_neg hp] at h
      simp [afterUpload] at h
      obtain ⟨h1, h2, h3⟩ := h
      subst h1; subst h2; subst h3
      refine ⟨?_, by simp [uploadHappens, hp], ?_⟩
      · intro e he
        simp at he
        subst he
        simp [isUnlinkEv, isDeleteEv, isDownloadEv]
      · intro j hj
        exact hj ▸ rfl

/-- The finally block: exactly one local unlink when the sample exists, exactly
one remote delete when a handle is held, the sample path is gone afterwards,
and nothing else happens. -/
theorem cleanupFin_spec (vp : Option String) (fs : List String) (handle : Option UFile) :
    (cleanupFin vp fs handle).1.countP isUnlinkEv = localCleanups vp fs
  ∧ (cleanupFin vp fs handle).1.countP isDeleteEv = (if handle.isSome then 1 else 0)
  ∧ (∀ p, vp = some p → p ∉ (cleanupFin vp fs handle).2)
  ∧ (∀ e ∈ (cleanupFin vp fs handle).1, isDownloadEv e = false)
  ∧ (vp = none → (cleanupFin vp fs handle).2 = fs)
  ∧ (∀ f, handle = some f → Ev.deleteRemote f.name ∈ (cleanupFin vp fs handle).1) := by
  cases vp with
  | none =>
    cases handle with
    | none =>
      refine ⟨rfl, rfl, by simp, by simp [cleanupFin], fun _ => rfl, by simp⟩
    | some f =>
      refine ⟨rfl, rfl, by simp, ?_, fun _ => rfl, ?_⟩
      · intro e he
        simp [cleanupFin] at he
        subst he
        rfl
      · rintro g hg
        cases hg
        simp [cleanupFin]
  | some p =>
    by_cases hp : p ∈ fs
    · cases handle with
      | none =>
        refine ⟨?_, ?_, ?_, ?_, by rintro ⟨⟩, by rintro g ⟨⟩⟩
        · simp [cleanupFin, hp, localCleanups, isUnlinkEv]
        · simp [cleanupFin, hp, isDeleteEv]
        · rintro q hq
          cases hq
          simp [cleanupFin, hp, List.mem_filter]
        · intro e he
          simp [cleanupFin, hp] at he
          subst he
          rfl
      | some f =>
        refine ⟨?_, ?_, ?_, ?_, by rintro ⟨⟩, ?_⟩
        · simp [cleanupFin, hp, localCleanups, isUnlinkEv, isDeleteEv]
        · simp [cleanupFin, hp, isDeleteEv, isUnlinkEv]
        · rintro q hq
          cases hq
          simp [cleanupFin, hp, List.mem_filter]
        · intro e he
          simp [cleanupFin, hp] at he
          rcases he with rfl | rfl <;> rfl
        · rintro g hg
          cases hg
          simp [cleanupFin, hp]
    · cases handle with
      | none =>
        refine ⟨?_, ?_, ?_, by simp [cleanupFin, hp], by rintro ⟨⟩, by rintro g ⟨⟩⟩
        · simp [cleanupFin, hp, localCleanups]
        · simp [cleanupFin, hp]
        · rintro q hq
          cases hq
          simp [cleanupFin, hp]
      | some f =>
        refine ⟨?_, ?_, ?_, ?_, by rintro ⟨⟩, ?_⟩
        · simp [cleanupFin, hp, localCleanups, isUnlinkEv]
        · simp [cleanupFin, hp, isDeleteEv]
        · rintro q hq
          cases hq
          simp [cleanupFin, hp]
        · intro e he
          simp [cleanupFin, hp] at he
          subst he
          rfl
        · rintro g hg
          cases hg
          simp [cleanupFin, hp]

/-- Decomposition of a successful orchestrator run into its try block and its
finally block. -/
theorem analyze_spec (env : GEnv) (vi : VideoAnalysis) (vp : Option String)
    (fs : List String) (r : PJson) (evs : List Ev) (fs2 : List String)
    (h : analyze_with_gemini env vi vp fs = some (r, evs, fs2)) :
    ∃ handle res bevs,
      tryBody env vi vp fs = some (handle, res, bevs) ∧
      r = (match res with | .ok j => j | .error _ => get_fallback_analysis) ∧
      evs = bevs ++ (cleanupFin vp fs handle).1 ∧
      fs2 = (cleanupFin vp fs handle).2 := by
  unfold analyze_with_gemini at h
  cases htb : tryBody env vi vp fs with
  | none => rw [htb] at h; cases h
  | some trip =>
    obtain ⟨handle, res, bevs⟩ := trip
    rw [htb] at h
    simp at h
    obtain ⟨h1, h2, h3⟩ := h
    exact ⟨handle, res, bevs, rfl, h1.symm, h2.symm, h3.symm⟩

/-- C1: on every terminating run of `analyze_with_gemini`, cleanup runs
exactly once: the local sample is unlinked exactly once when it exists (and
is gone from the filesystem afterwards), and the number of remote delete
calls equals the number of successful upload calls. -/
theorem C1_cleanup_exactly_once (env : GEnv) (vi : VideoAnalysis)
    (vp : Option String) (fs : List String) (r : PJson) (evs : List Ev)
    (fs2 : List String)
    (h : analyze_with_gemini env vi vp fs = some (r, evs, fs2)) :
    evs.countP isUnlinkEv = localCleanups vp fs
  ∧ evs.countP isDeleteEv = uploadOkCount env vp fs
  ∧ ∀ p, vp = some p → p ∉ fs2 := by
  obtain ⟨handle, res, bevs, htb, -, hevs, hfs2⟩ :=
    analyze_spec env vi vp fs r evs fs2 h
  obtain ⟨hsh, hhandle, -⟩ := tryBody_spec env vi vp fs handle res bevs htb
  obtain ⟨hc1, hc2, hc3, -, -, -⟩ := cleanupFin_spec vp fs handle
  have hz1 : bevs.countP isUnlinkEv = 0 :=
    List.countP_eq_zero.mpr (fun e he => by simp [(hsh e he).1])
  have hz2 : bevs.countP isDeleteEv = 0 :=
    List.countP_eq_zero.mpr (fun e he => by simp [(hsh e he).2.1])
  subst hevs
  subst hfs2
  refine ⟨?_, ?_, hc3⟩
  · rw [List.countP_append, hz1, hc1, Nat.zero_add]
  · rw [List.countP_append, hz2, hc2, Nat.zero_add, uploadOkCount, ← hhandle]

/-- Metadata record used by the concrete witness runs. -/
def wVi : VideoAnalysis := ⟨"", "", "", "", 0, 0, 0, 0, "", "", []⟩

/-- Service behaviour for the C1 witness run: upload succeeds with a handle
already READY, generation returns a JSON array. -/
def c1env : GEnv := ⟨.ok ⟨"u", .ready⟩, [], .ok "[]"⟩

/-- Result triple of the C1 witness run. -/
def c1trip : PJson × List Ev × List String :=
  (analyze_with_gemini c1env wVi (some "s.mp4") ["s.mp4"]).getD (.null, [], [])

/-- Witness for C1: a concrete successful run unlinks the sample once,
deletes the remote file once (one successful upload), and the sample is gone. -/
theorem C1_cleanup_exactly_once_witness :
    (c1trip.2.1).countP isUnlinkEv = localCleanups (some "s.mp4") ["s.mp4"]
  ∧ (c1trip.2.1).countP isDeleteEv = uploadOkCount c1env (some "s.mp4") ["s.mp4"]
  ∧ ∀ p, (some "s.mp4" : Option String) = some p → p ∉ c1trip.2.2 :=
  C1_cleanup_exactly_once c1env wVi (some "s.mp4") ["s.mp4"]
    c1trip.1 c1trip.2.1 c1trip.2.2 rfl

/-- C2: every exception-like condition inside the try block (upload failure,
poll failure, FAILED terminal state, generation failure, parse failure) is
converted into the fallback report — a terminating run returns either the
parsed generation response or the fallback, never an error — and a handle
whose terminal state is FAILED yields the fallback while the remote delete
call is still issued. -/
theorem C2_never_propagates (env : GEnv) (vi : VideoAnalysis)
    (vp : Option String) (fs : List String) (r : PJson) (evs : List Ev)
    (fs2 : List String)
    (h : analyze_with_gemini env vi vp fs = some (r, evs, fs2)) :
    ((∃ t j, env.generateResult = .ok t ∧ jsonLoadsL (cleanL t.data) = some j ∧ r = j)
      ∨ r = get_fallback_analysis)
  ∧ (∀ p f0 f last pevs, vp = some p → p ∈ fs → env.uploadResult = .ok f0 →
      pollLoop env.pollSupply f0 = some (.ok f, last, pevs) → f.st = .failed →
      r = get_fallback_analysis ∧ Ev.deleteRemote f.name ∈ evs) := by
  obtain ⟨handle, res, bevs, htb, hr, hevs, hfs2⟩ :=
    analyze_spec env vi vp fs r evs fs2 h
  obtain ⟨-, -, hgen⟩ := tryBody_spec env vi vp fs handle res bevs htb
  constructor
  · cases res with
    | error u => right; rw [hr]
    | ok j =>
      left
      have hg := hgen j rfl
      unfold genResOf at hg
      cases hgr : env.generateResult with
      | error u => rw [hgr] at hg; cases hg
      | ok t =>
        simp only [hgr] at hg
        cases hl : jsonLoadsL (cleanL t.data) with
        | none => simp only [hl] at hg; cases hg
        | some j' =>
          simp only [hl] at hg
          cases hg
          exact ⟨t, j, rfl, hl, by rw [hr]⟩
  · intro p f0 f last pevs hvp hp hup hpl hf
    subst hvp
    have htb2 : tryBody env vi (some p) fs =
        some (some f, .error (), Ev.upload p :: pevs) := by
      simp [tryBody, hp, hup, hpl, hf]
    rw [htb] at htb2
    injection htb2 with htb3
    injection htb3 with e1 htb4
    injection htb4 with e2 e3
    subst e1
    subst e2
    subst e3
    refine ⟨by rw [hr], ?_⟩
    subst hevs
    obtain ⟨-, -, -, -, -, hdel⟩ := cleanupFin_spec (some p) fs (some f)
    exact List.mem_append.mpr (.inr (hdel f rfl))

/-- Service behaviour for the C2 witness run: the handle's terminal state is
FAILED. -/
def c2env : GEnv := ⟨.ok ⟨"u", .failed⟩, [], .ok "[]"⟩

/-- Result triple of the C2 witness run. -/
def c2trip : PJson × List Ev × List String :=
  (analyze_with_gemini c2env wVi (some "s.mp4") ["s.mp4"]).getD (.null, [], [])

/-- Witness for C2: with a FAILED handle the concrete run returns the
fallback report and still issues the remote delete call. -/
theorem C2_never_propagates_witness :
    c2trip.1 = get_fallback_analysis ∧ Ev.deleteRemote "u" ∈ c2trip.2.1 :=
  (C2_never_propagates c2env wVi (some "s.mp4") ["s.mp4"]
      c2trip.1 c2trip.2.1 c2trip.2.2 rfl).2
    "s.mp4" ⟨"u", .failed⟩ ⟨"u", .failed⟩ ⟨"u", .failed⟩ []
    rfl (by decide) rfl rfl rfl

/-- C5: with an uploaded handle that reports PROCESSING, then PROCESSING once
more on the first re-fetch and READY on the second, the orchestrator performs
exactly two re-fetch polls, each preceded by a suspension of the fixed
2-unit interval, and then proceeds to the generation step (the full trace is
upload, sleep 2, re-fetch, sleep 2, re-fetch, generate, then cleanup). -/
theorem C5_two_polls (env : GEnv) (vi : VideoAnalysis) (p : String)
    (fs : List String) (f0 f1 f2 : UFile)
    (hmem : p ∈ fs)
    (hup : env.uploadResult = .ok f0)
    (hsup : env.pollSupply = [.ok f1, .ok f2])
    (h0 : f0.st = .processing) (h1 : f1.st = .processing) (h2 : f2.st = .ready) :
    ∃ r, analyze_with_gemini env vi (some p) fs =
      some (r,
        [Ev.upload p, Ev.sleep 2, Ev.getFile f0.name, Ev.sleep 2, Ev.getFile f1.name,
         Ev.generate (buildPrompt vi) true, Ev.unlink p, Ev.deleteRemote f2.name],
        fs.filter (fun q => q != p)) := by
  have hnf : f2.st ≠ .failed := by rw [h2]; intro hc; cases hc
  have hpl : pollLoop env.pollSupply f0 =
      some (.ok f2, f2, [Ev.sleep 2, Ev.getFile f0.name, Ev.sleep 2, Ev.getFile f1.name]) := by
    rw [hsup]
    rw [pollLoop.eq_def]
    simp only [h0, if_pos rfl]
    rw [pollLoop.eq_def]
    simp only [h1, if_pos rfl]
    rw [pollLoop.eq_def]
    simp only [h2]
    simp
  refine ⟨(match genResOf env with | .ok j => j | .error _ => get_fallback_analysis), ?_⟩
  simp [analyze_with_gemini, tryBody, hmem, hup, hpl, hnf, afterUpload, cleanupFin]

/-- Service behaviour for the C5 witness run: PROCESSING at upload,
PROCESSING on the first re-fetch, READY on the second. -/
def c5env : GEnv :=
  ⟨.ok ⟨"u0", .processing⟩, [.ok ⟨"u1", .processing⟩, .ok ⟨"u2", .ready⟩], .ok "[]"⟩

/-- Witness for C5: the concrete run shows the exact trace with two
sleep-then-re-fetch pairs before generation. -/
theorem C5_two_polls_witness :
    ∃ r, analyze_with_gemini c5env wVi (some "s.mp4") ["s.mp4"] =
      some (r,
        [Ev.upload "s.mp4", Ev.sleep 2, Ev.getFile "u0", Ev.sleep 2, Ev.getFile "u1",
         Ev.generate (buildPrompt wVi) true, Ev.unlink "s.mp4", Ev.deleteRemote "u2"],
        ["s.mp4"].filter (fun q => q != "s.mp4")) :=
  C5_two_polls c5env wVi "s.mp4" ["s.mp4"]
    ⟨"u0", .processing⟩ ⟨"u1", .processing⟩ ⟨"u2", .ready⟩
    (by decide) rfl rfl rfl rfl rfl

/-- With no sample path the orchestrator's run is fully determined: one
generation call without a file reference, no cleanup, filesystem unchanged. -/
theorem analyze_none_spec (env : GEnv) (vi : VideoAnalysis) (fs : List String)
    (r : PJson) (evs : List Ev) (fs2 : List String)
    (h : analyze_with_gemini env vi none fs = some (r, evs, fs2)) :
    fs2 = fs ∧ evs = [Ev.generate (buildPrompt vi) false] := by
  simp [analyze_with_gemini, tryBody, afterUpload, cleanupFin] at h
  exact ⟨h.2.2.symm, h.2.1.symm⟩

/-- C8: for the request URL `https://youtu.be/abc123` with the
analyze-video-content flag off, the extractor resolves the identifier
`abc123`, no sampling download is attempted, the orchestrator is invoked with
the sample absent, and a successful response carries
`video_info.video_id = "abc123"` (given a provider whose info dict reports
that id). -/
theorem C8_boundary_request :
    extract_video_id "https://youtu.be/abc123" = some "abc123"
  ∧ (∀ (env : WebEnv) (fs : List String) (info : RawInfo) r evs fs2,
      env.info = .ok info → info.id = some "abc123" →
      analyze_video env (some "https://youtu.be/abc123") false fs = some (r, evs, fs2) →
      evs.countP isDownloadEv = 0 ∧ Ev.orchCall none ∈ evs ∧
      ∀ resp, r = .ok resp → resp.video_info.video_id = "abc123") := by
  constructor
  · decide
  · intro env fs info r evs fs2 hinfo hid h
    have hex : extract_video_id "https://youtu.be/abc123" = some "abc123" := by decide
    unfold analyze_video at h
    rw [if_neg (by decide)] at h
    simp only [hex, hinfo, get_video_info] at h
    cases hag : analyze_with_gemini env.gem
        { video_id := info.id.getD "", title := info.title.getD "",
          description := info.description.getD "",
          thumbnail_url := info.thumbnail.getD "",
          duration := info.duration.getD 0, view_count := info.view_count.getD 0,
          like_count := info.like_count.getD 0,
          comment_count := info.comment_count.getD 0,
          upload_date := info.upload_date.getD "",
          channel_name := info.uploader.getD "", tags := info.tags.getD [] }
        none fs with
    | none =>
      rw [hag] at h
      simp at h
    | some trip =>
      obtain ⟨res, evs2, fs2'⟩ := trip
      rw [hag] at h
      simp at h
      obtain ⟨h1, h2, h3⟩ := h
      obtain ⟨-, hevs2⟩ := analyze_none_spec _ _ _ _ _ _ hag
      subst hevs2
      refine ⟨?_, ?_, ?_⟩
      · rw [← h2]
        simp [isDownloadEv]
      · rw [← h2]
        simp
      · intro resp hresp
        rw [← h1] at hresp
        cases hresp
        simp [hid]

/-- External behaviour for the C8 witness run: provider reports id abc123,
generation returns a JSON array; the downloader is never consulted. -/
def c8web : WebEnv :=
  ⟨.ok { id := some "abc123" }, ⟨"t.mp4", .error ()⟩, ⟨.error (), [], .ok "[]"⟩⟩

/-- Result triple of the C8 witness run. -/
def c8trip : Except (String × Nat) RespOk × List Ev × List String :=
  (analyze_video c8web (some "https://youtu.be/abc123") false []).getD
    (.error ("", 0), [], [])

/-- Witness for C8: the concrete run attempts no download, calls the
orchestrator with the sample absent, and reports video id abc123. -/
theorem C8_boundary_request_witness :
    (c8trip.2.1).countP isDownloadEv = 0 ∧ Ev.orchCall none ∈ c8trip.2.1 ∧
    ∀ resp, c8trip.1 = .ok resp → resp.video_info.video_id = "abc123" :=
  (C8_boundary_request).2 c8web [] { id := some "abc123" }
    c8trip.1 c8trip.2.1 c8trip.2.2 rfl rfl rfl

/-- C10: when the downloader's external download step fails after the
temporary file was allocated, `download_video_segment` returns `none` but
deletes nothing — the fresh temporary file stays on the filesystem — and no
later component of the pipeline removes it (the orchestrator receives no
path, so the whole request performs no unlink and the file survives in the
final filesystem). -/
theorem C10_temp_file_leak :
    (∀ (denv : DlEnv) (fs : List String), denv.dlResult = .error () →
       download_video_segment denv fs = (none, [Ev.download], fs ++ [denv.tempName]))
  ∧ (∀ (env : WebEnv) (url : String) (fs : List String) (info : RawInfo) r evs fs2,
       url ≠ "" → extract_video_id url ≠ none → env.info = .ok info →
       env.dl.dlResult = .error () →
       analyze_video env (some url) true fs = some (r, evs, fs2) →
       env.dl.tempName ∈ fs2 ∧ evs.countP isUnlinkEv = 0) := by
  constructor
  · intro denv fs hdl
    simp [download_video_segment, hdl]
  · intro env url fs info r evs fs2 hurl hex hinfo hdl h
    unfold analyze_video at h
    simp only [if_neg hurl] at h
    cases hev : extract_video_id url with
    | none => exact absurd hev hex
    | some v =>
      simp only [hev, hinfo, get_video_info] at h
      simp only [download_video_segment, hdl] at h
      simp only [if_true] at h
      cases hag : analyze_with_gemini env.gem
          { video_id := info.id.getD "", title := info.title.getD "",
            description := info.description.getD "",
            thumbnail_url := info.thumbnail.getD "",
            duration := info.duration.getD 0, view_count := info.view_count.getD 0,
            like_count := info.like_count.getD 0,
            comment_count := info.comment_count.getD 0,
            upload_date := info.upload_date.getD "",
            channel_name := info.uploader.getD "", tags := info.tags.getD [] }
          none (fs ++ [env.dl.tempName]) with
      | none =>
        rw [hag] at h
        simp at h
      | some trip =>
        obtain ⟨res, evs2, fs2'⟩ := trip
        rw [hag] at h
        simp at h
        obtain ⟨-, h2, h3⟩ := h
        obtain ⟨hfs, hevs2⟩ := analyze_none_spec _ _ _ _ _ _ hag
        subst hevs2
        subst hfs
        constructor
        · rw [← h3]
          simp
        · rw [← h2]
          simp [isUnlinkEv]

/-- External behaviour for the C10 witness run: the download step raises
after the temporary file was allocated. -/
def c10web : WebEnv :=
  ⟨.ok {}, ⟨"t.mp4", .error ()⟩, ⟨.error (), [], .ok "[]"⟩⟩

/-- Result triple of the C10 witness run. -/
def c10trip : Except (String × Nat) RespOk × List Ev × List String :=
  (analyze_video c10web (some "https://youtu.be/abc123") true []).getD
    (.error ("", 0), [], [])

/-- Witness for C10: in the concrete failed-download run the temporary file
survives in the final filesystem and no unlink is ever issued. -/
theorem C10_temp_file_leak_witness :
    "t.mp4" ∈ c10trip.2.2 ∧ (c10trip.2.1).countP isUnlinkEv = 0 :=
  (C10_temp_file_leak).2 c10web "https://youtu.be/abc123" [] {}
    c10trip.1 c10trip.2.1 c10trip.2.2
    (by decide) (by decide) rfl rfl rfl

/-- A prefix of a list is still a prefix after appending. -/
theorem isPre_append (pat : List Char) : ∀ x z : List Char,
    isPre pat x = true → isPre pat (x ++ z) = true := by
  induction pat with
  | nil => intro x z _; rfl
  | cons a as ih =>
    intro x z h
    cases x with
    | nil => cases h
    | cons b bs =>
      simp only [isPre, Bool.and_eq_true] at h ⊢
      exact ⟨h.1, ih bs z h.2⟩

/-- A short prefix of an appended list is a prefix of the first part. -/
theorem isPre_of_append (pat : List Char) : ∀ x z : List Char,
    isPre pat (x ++ z) = true → pat.length ≤ x.length → isPre pat x = true := by
  induction pat with
  | nil => intro x z _ _; rfl
  | cons a as ih =>
    intro x z h hlen
    cases x with
    | nil => simp at hlen
    | cons b bs =>
      simp only [List.cons_append, isPre, Bool.and_eq_true] at h ⊢
      exact ⟨h.1, ih bs z h.2 (by simpa using hlen)⟩

/-- A prefix long enough to cross an appended element contains that element. -/
theorem isPre_mem_of_lt : ∀ (x pat : List Char) (w : Char) (y : List Char),
    isPre pat (x ++ w :: y) = true → x.length < pat.length → w ∈ pat := by
  intro x
  induction x with
  | nil =>
    intro pat w y h hlen
    cases pat with
    | nil => simp at hlen
    | cons a as =>
      simp only [List.nil_append, isPre, Bool.and_eq_true] at h
      have haw : a = w := of_decide_eq_true h.1
      subst haw
      exact List.mem_cons_self _ _
  | cons c xs ih =>
    intro pat w y h hlen
    cases pat with
    | nil => simp at hlen
    | cons a as =>
      simp only [List.cons_append, isPre, Bool.and_eq_true] at h
      exact List.mem_cons_of_mem a (ih as w y h.2 (by simpa using hlen))

/-- Every list is a prefix of itself extended. -/
theorem isPre_self_app (pat : List Char) : ∀ r, isPre pat (pat ++ r) = true := by
  induction pat with
  | nil => intro r; rfl
  | cons a as ih =>
    intro r
    simp only [List.cons_append, isPre, Bool.and_eq_true]
    exact ⟨rfl, ih r⟩

/-- The single-pass remover does not depend on the fuel, as long as the fuel
covers the input length. -/
theorem removeAllF_congr (pat : List Char) : ∀ (n : Nat) (m : Nat) (s : List Char),
    s.length ≤ n → s.length ≤ m → removeAllF pat n s = removeAllF pat m s := by
  intro n
  induction n with
  | zero =>
    intro m s hn _
    have : s = [] := List.eq_nil_of_length_eq_zero (Nat.le_zero.mp hn)
    subst this
    cases m <;> rfl
  | succ n ih =>
    intro m s hn hm
    cases s with
    | nil => cases m <;> rfl
    | cons c rest =>
      cases m with
      | zero => simp at hm
      | succ m' =>
        simp only [removeAllF]
        by_cases hc : (!pat.isEmpty && isPre pat (c :: rest)) = true
        · rw [hc]
          simp only [if_true]
          have hlen : (rest.drop (pat.length - 1)).length ≤ rest.length := by
            rw [List.length_drop]; omega
          have h1 : rest.length ≤ n := by simpa using hn
          have h2 : rest.length ≤ m' := by simpa using hm
          exact ih m' _ (Nat.le_trans hlen h1) (Nat.le_trans hlen h2)
        · rw [Bool.not_eq_true] at hc
          rw [hc]
          simp only [Bool.false_eq_true, if_false, List.cons.injEq, true_and]
          have h1 : rest.length ≤ n := by simpa using hn
          have h2 : rest.length ≤ m' := by simpa using hm
          exact ih m' rest h1 h2

/-- Unfolding equation of `removeAll` on a cons cell. -/
theorem removeAll_cons (pat : List Char) (c : Char) (rest : List Char) :
    removeAll pat (c :: rest) =
      if (!pat.isEmpty && isPre pat (c :: rest)) = true then
        removeAll pat (rest.drop (pat.length - 1))
      else c :: removeAll pat rest := by
  show removeAllF pat (rest.length + 1) (c :: rest) = _
  simp only [removeAllF]
  by_cases hc : (!pat.isEmpty && isPre pat (c :: rest)) = true
  · rw [hc]
    simp only [if_true]
    exact removeAllF_congr pat rest.length _ _ (by rw [List.length_drop]; omega)
      (Nat.le_refl _)
  · rw [Bool.not_eq_true] at hc
    rw [hc]
    simp only [Bool.false_eq_true, if_false]
    rfl

/-- A character outside the pattern is copied unchanged. -/
theorem removeAll_cons_skip (pat : List Char) (w : Char) (y : List Char)
    (hw : w ∉ pat) : removeAll pat (w :: y) = w :: removeAll pat y := by
  rw [removeAll_cons]
  have hfalse : (!pat.isEmpty && isPre pat (w :: y)) = false := by
    cases pat with
    | nil => rfl
    | cons a as =>
      simp only [List.isEmpty_cons, Bool.not_false, Bool.true_and]
      cases hd : decide (a = w) with
      | false => simp [isPre, hd]
      | true =>
        exact absurd (of_decide_eq_true hd ▸ List.mem_cons_self a as) hw
  rw [hfalse]
  simp

/-- Single-pass removal splits at any character outside the pattern. -/
theorem removeAll_split (pat : List Char) (w : Char) (hw : w ∉ pat) :
    ∀ x y : List Char,
      removeAll pat (x ++ w :: y) = removeAll pat x ++ w :: removeAll pat y := by
  have main : ∀ (n : Nat) (x y : List Char), x.length ≤ n →
      removeAll pat (x ++ w :: y) = removeAll pat x ++ w :: removeAll pat y := by
    intro n
    induction n with
    | zero =>
      intro x y hx
      have : x = [] := List.eq_nil_of_length_eq_zero (Nat.le_zero.mp hx)
      subst this
      simpa using removeAll_cons_skip pat w y hw
    | succ n ih =>
      intro x y hx
      cases x with
      | nil => simpa using removeAll_cons_skip pat w y hw
      | cons c xs =>
        rw [List.cons_append, removeAll_cons, removeAll_cons]
        by_cases hmatch : (!pat.isEmpty && isPre pat (c :: xs ++ w :: y)) = true
        · have hm : (!pat.isEmpty) = true ∧ isPre pat (c :: xs ++ w :: y) = true := by
            simpa [Bool.and_eq_true] using hmatch
          have hple : pat.length ≤ (c :: xs).length := by
            by_contra hgt
            push_neg at hgt
            exact hw (isPre_mem_of_lt (c :: xs) pat w y (by simpa using hm.2) hgt)
          have hpre : isPre pat (c :: xs) = true :=
            isPre_of_append pat (c :: xs) (w :: y) (by simpa using hm.2) hple
          have hmatch2 : (!pat.isEmpty && isPre pat (c :: xs)) = true := by
            simp only [Bool.and_eq_true]
            exact ⟨hm.1, hpre⟩
          rw [if_pos (by simpa using hmatch), if_pos (by simpa using hmatch2)]
          have hk : pat.length - 1 ≤ xs.length := by
            simp only [List.length_cons] at hple
            omega
          rw [List.drop_append_of_le_length hk]
          exact ih _ y (by
            rw [List.length_drop]
            simp only [List.length_cons] at hx
            omega)
        · have hmatch2 : ¬((!pat.isEmpty && isPre pat (c :: xs)) = true) := by
            intro hcon
            apply hmatch
            have hcon2 : (!pat.isEmpty) = true ∧ isPre pat (c :: xs) = true := by
              simpa [Bool.and_eq_true] using hcon
            simp only [Bool.and_eq_true]
            exact ⟨hcon2.1, by
              have := isPre_append pat (c :: xs) (w :: y) hcon2.2
              simpa using this⟩
          rw [if_neg (by simpa using hmatch), if_neg (by simpa using hmatch2)]
          have := ih xs y (by simpa using Nat.lt_succ_iff.mp (by
            simpa [Nat.lt_succ_iff] using hx))
          rw [this]
          simp
  intro x y
  exact main x.length x y (Nat.le_refl _)

/-- Removal is the identity on lists disjoint from the pattern. -/
theorem removeAll_of_disjoint (pat : List Char) : ∀ l : List Char,
    (∀ a ∈ l, a ∉ pat) → removeAll pat l = l := by
  intro l
  induction l with
  | nil => intro; rfl
  | cons a t ih =>
    intro h
    rw [removeAll_cons_skip pat a t (h a (List.mem_cons_self a t))]
    rw [ih (fun b hb => h b (List.mem_cons_of_mem a hb))]

/-- The remover deletes its own pattern at the head. -/
theorem removeAll_self_head (pat : List Char) (hpat : pat ≠ []) (r : List Char) :
    removeAll pat (pat ++ r) = removeAll pat r := by
  cases pat with
  | nil => exact absurd rfl hpat
  | cons a as =>
    rw [List.cons_append, removeAll_cons]
    have hpre : isPre (a :: as) ((a :: as) ++ r) = true := isPre_self_app _ r
    rw [if_pos (by
      simp only [Bool.and_eq_true, List.isEmpty_cons, Bool.not_false]
      exact ⟨trivial, by simpa using hpre⟩)]
    simp only [List.length_cons, Nat.add_sub_cancel]
    rw [List.drop_append_of_le_length (Nat.le_refl _)]
    simp [List.drop_length]

/-- Removal passes over a padding of characters outside the pattern. -/
theorem removeAll_prepend_pad (pat : List Char) : ∀ w x : List Char,
    (∀ a ∈ w, a ∉ pat) → removeAll pat (w ++ x) = w ++ removeAll pat x := by
  intro w
  induction w with
  | nil => intro x _; rfl
  | cons a t ih =>
    intro x h
    rw [List.cons_append, removeAll_cons_skip pat a _ (h a (List.mem_cons_self a t))]
    rw [ih x (fun b hb => h b (List.mem_cons_of_mem a hb))]
    rfl

/-- Removal leaves a trailing padding of characters outside the pattern. -/
theorem removeAll_append_pad (pat : List Char) (w x : List Char)
    (h : ∀ a ∈ w, a ∉ pat) : removeAll pat (x ++ w) = removeAll pat x ++ w := by
  cases w with
  | nil => simp
  | cons w0 ws =>
    rw [removeAll_split pat w0 (h w0 (List.mem_cons_self w0 ws)) x ws]
    rw [removeAll_of_disjoint pat ws (fun b hb => h b (List.mem_cons_of_mem w0 hb))]

/-- Unfolding of `dropWhile` on a head that fails the test. -/
theorem dropWhile_cons_false (p : Char → Bool) (a : Char) (l : List Char)
    (h : p a = false) : (a :: l).dropWhile p = a :: l := by
  simp [List.dropWhile_cons, h]

/-- `dropWhile` skips an all-satisfying padding. -/
theorem dropWhile_append_of_all (p : Char → Bool) : ∀ w x : List Char,
    (∀ a ∈ w, p a = true) → (w ++ x).dropWhile p = x.dropWhile p := by
  intro w
  induction w with
  | nil => intro x _; rfl
  | cons a t ih =>
    intro x h
    rw [List.cons_append, List.dropWhile_cons]
    rw [h a (List.mem_cons_self a t)]
    simp only [if_true]
    exact ih x (fun b hb => h b (List.mem_cons_of_mem a hb))

/-- An all-satisfying list is dropped entirely. -/
theorem dropWhile_eq_nil_of_all (p : Char → Bool) : ∀ l : List Char,
    (∀ a ∈ l, p a = true) → l.dropWhile p = [] := by
  intro l
  induction l with
  | nil => intro; rfl
  | cons a t ih =>
    intro h
    rw [List.dropWhile_cons, h a (List.mem_cons_self a t)]
    simp only [if_true]
    exact ih (fun b hb => h b (List.mem_cons_of_mem a hb))

/-- A fully dropped list satisfied the test everywhere. -/
theorem all_of_dropWhile_eq_nil (p : Char → Bool) : ∀ l : List Char,
    l.dropWhile p = [] → ∀ a ∈ l, p a = true := by
  intro l
  induction l with
  | nil => intro _ a ha; cases ha
  | cons c t ih =>
    intro h a ha
    rw [List.dropWhile_cons] at h
    cases hc : p c with
    | false => rw [hc] at h; simp at h
    | true =>
      rw [hc] at h
      simp only [if_true] at h
      rcases List.mem_cons.mp ha with rfl | hat
      · exact hc
      · exact ih h a hat

/-- `dropWhile` distributes over an append whose first part survives. -/
theorem dropWhile_append_pos (p : Char → Bool) : ∀ x w c t,
    x.dropWhile p = c :: t → (x ++ w).dropWhile p = c :: t ++ w := by
  intro x
  induction x with
  | nil => intro w c t h; cases h
  | cons a xs ih =>
    intro w c t h
    rw [List.dropWhile_cons] at h
    rw [List.cons_append, List.dropWhile_cons]
    cases hc : p a with
    | false =>
      rw [hc] at h
      simp only [Bool.false_eq_true, if_false] at h ⊢
      cases h
      simp
    | true =>
      rw [hc] at h
      simp only [if_true] at h ⊢
      exact ih w c t h

/-- Trimming ignores an all-satisfying left padding. -/
theorem trimWith_prepend (p : Char → Bool) (w x : List Char)
    (h : ∀ a ∈ w, p a = true) : trimWith p (w ++ x) = trimWith p x := by
  unfold trimWith
  rw [dropWhile_append_of_all p w x h]

/-- Trimming ignores an all-satisfying right padding. -/
theorem trimWith_append (p : Char → Bool) (x w : List Char)
    (h : ∀ a ∈ w, p a = true) : trimWith p (x ++ w) = trimWith p x := by
  unfold trimWith
  cases hd : x.dropWhile p with
  | nil =>
    have hx : ∀ a ∈ x, p a = true := all_of_dropWhile_eq_nil p x hd
    have hxw : (x ++ w).dropWhile p = [] := by
      apply dropWhile_eq_nil_of_all
      intro a ha
      rcases List.mem_append.mp ha with h1 | h2
      · exact hx a h1
      · exact h a h2
    rw [hxw]
  | cons c t =>
    rw [dropWhile_append_pos p x w c t hd]
    rw [show (c :: t ++ w).reverse = w.reverse ++ (c :: t).reverse by simp]
    rw [dropWhile_append_of_all p w.reverse (c :: t).reverse (fun a ha => h a (by
      simpa using ha))]

/-- Every string splits as whitespace padding around its trim. -/
theorem trimWith_decomp (p : Char → Bool) (s : List Char) :
    ∃ lws tws, s = lws ++ trimWith p s ++ tws ∧
      (∀ a ∈ lws, p a = true) ∧ (∀ a ∈ tws, p a = true) := by
  refine ⟨s.takeWhile p, ((s.dropWhile p).reverse.takeWhile p).reverse, ?_, ?_, ?_⟩
  · conv_lhs => rw [← List.takeWhile_append_dropWhile (p := p) (l := s)]
    rw [List.append_assoc]
    congr 1
    conv_lhs => rw [← List.reverse_reverse (s.dropWhile p),
      ← List.takeWhile_append_dropWhile (p := p) (l := (s.dropWhile p).reverse)]
    rw [List.reverse_append]
    rfl
  · intro a ha
    exact List.mem_takeWhile_imp ha
  · intro a ha
    exact List.mem_takeWhile_imp (List.mem_reverse.mp ha)

/-- JSON whitespace is Python whitespace. -/
theorem wsJ_sub_py (a : Char) (h : isWsJ a = true) : isWsPy a = true := by
  simp only [isWsJ, Bool.or_eq_true, decide_eq_true_eq] at h
  rcases h with ((rfl | rfl) | rfl) | rfl <;> decide

/-- No Python whitespace character occurs in the first fence pattern (its
characters are backticks and lowercase letters, none of them whitespace). -/
theorem wsPy_not_in_patJson (a : Char) (h : isWsPy a = true) : a ∉ patJson := by
  intro hmem
  have hp : patJson = ['`', '`', '`', 'j', 's', 'o', 'n'] := rfl
  rw [hp] at hmem
  have hfalse : isWsPy a = false := by fin_cases hmem <;> decide
  rw [h] at hfalse
  cases hfalse

/-- No Python whitespace character occurs in the second fence pattern. -/
theorem wsPy_not_in_pat3 (a : Char) (h : isWsPy a = true) : a ∉ pat3 := by
  intro hmem
  have hp : pat3 = ['`', '`', '`'] := rfl
  rw [hp] at hmem
  have hfalse : isWsPy a = false := by fin_cases hmem <;> decide
  rw [h] at hfalse
  cases hfalse

/-- Trimming is the identity when both end characters fail the test. -/
theorem trimWith_no_ends (p : Char → Bool) (a b : Char) (x : List Char)
    (ha : p a = false) (hb : p b = false) :
    trimWith p (a :: x ++ [b]) = a :: x ++ [b] := by
  unfold trimWith
  rw [show ((a :: x ++ [b]) : List Char).dropWhile p = a :: x ++ [b] from
    dropWhile_cons_false p a (x ++ [b]) ha]
  rw [show ((a :: x ++ [b]) : List Char).reverse = b :: (a :: x).reverse by simp]
  rw [dropWhile_cons_false p b _ hb]
  simp

/-- The fence-stripping chain on a fenced text: the fences dissolve into a
newline padding around the chain applied to the raw text. -/
theorem cleanL_fence (c : List Char) :
    cleanL (fenceL c) =
      '\n' :: (removeAll pat3 (removeAll patJson c) ++ ['\n']) := by
  have hform : fenceL c =
      '`' :: (('`' :: '`' :: 'j' :: 's' :: 'o' :: 'n' :: '\n' :: c) ++
        ('\n' :: '`' :: '`' :: [])) ++ ['`'] := by
    show ("```json\n".data ++ c ++ "\n```".data) = _
    rw [show "```json\n".data = '`' :: '`' :: '`' :: 'j' :: 's' :: 'o' :: 'n' :: '\n' :: [] from rfl]
    rw [show "\n```".data = '\n' :: '`' :: '`' :: '`' :: [] from rfl]
    simp
  have hstrip : pyStrip (fenceL c) = fenceL c := by
    rw [hform]
    exact trimWith_no_ends isWsPy '`' '`' _ (by decide) (by decide)
  have hform2 : fenceL c = patJson ++ ('\n' :: (c ++ '\n' :: pat3)) := by
    show ("```json\n".data ++ c ++ "\n```".data) = _
    rw [show "```json\n".data = patJson ++ ['\n'] from rfl]
    rw [show "\n```".data = '\n' :: pat3 from rfl]
    simp
  have hnl7 : '\n' ∉ patJson := by decide
  have hnl3 : '\n' ∉ pat3 := by decide
  have hstep1 : removeAll patJson (fenceL c) =
      '\n' :: (removeAll patJson c ++ '\n' :: pat3) := by
    rw [hform2]
    rw [removeAll_self_head patJson (by decide) _]
    rw [removeAll_cons_skip patJson '\n' _ hnl7]
    rw [removeAll_split patJson '\n' hnl7 c pat3]
    rw [show removeAll patJson pat3 = pat3 from by decide]
  show removeAll pat3 (removeAll patJson (pyStrip (fenceL c))) = _
  rw [hstrip, hstep1]
  rw [removeAll_cons_skip pat3 '\n' _ hnl3]
  rw [removeAll_split pat3 '\n' hnl3 (removeAll patJson c) pat3]
  rw [show removeAll pat3 pat3 = ([] : List Char) from by decide]

/-- The fence-stripping chain on the raw text: it is the chain on the
stripped text, wrapped in the whitespace the strip would have removed. -/
theorem cleanL_unfenced (c : List Char) :
    ∃ lws tws,
      c = lws ++ pyStrip c ++ tws ∧
      (∀ a ∈ lws, isWsPy a = true) ∧ (∀ a ∈ tws, isWsPy a = true) ∧
      removeAll pat3 (removeAll patJson c) = lws ++ (cleanL c ++ tws) := by
  obtain ⟨lws, tws, hdec, hl, ht⟩ := trimWith_decomp isWsPy c
  refine ⟨lws, tws, hdec, hl, ht, ?_⟩
  have hl7 : ∀ a ∈ lws, a ∉ patJson := fun a ha => wsPy_not_in_patJson a (hl a ha)
  have ht7 : ∀ a ∈ tws, a ∉ patJson := fun a ha => wsPy_not_in_patJson a (ht a ha)
  have hl3 : ∀ a ∈ lws, a ∉ pat3 := fun a ha => wsPy_not_in_pat3 a (hl a ha)
  have ht3 : ∀ a ∈ tws, a ∉ pat3 := fun a ha => wsPy_not_in_pat3 a (ht a ha)
  conv_lhs => rw [hdec]
  rw [List.append_assoc]
  rw [removeAll_prepend_pad patJson lws _ hl7]
  rw [removeAll_append_pad patJson tws _ ht7]
  rw [removeAll_prepend_pad pat3 lws _ hl3]
  rw [removeAll_append_pad pat3 tws _ ht3]
  rfl

/-- When every Python-whitespace character of the text is JSON whitespace,
the cleaned fenced and unfenced versions agree up to JSON-whitespace trim. -/
theorem trimJ_cleanL_fence (c : List Char)
    (hws : ∀ a ∈ c, isWsPy a = true → isWsJ a = true) :
    trimJ (cleanL (fenceL c)) = trimJ (cleanL c) := by
  obtain ⟨lws, tws, hdec, hl, ht, hR⟩ := cleanL_unfenced c
  have hlJ : ∀ a ∈ lws, isWsJ a = true := fun a ha =>
    hws a (hdec ▸ List.mem_append.mpr (.inl (List.mem_append.mpr (.inl ha)))) (hl a ha)
  have htJ : ∀ a ∈ tws, isWsJ a = true := fun a ha =>
    hws a (hdec ▸ List.mem_append.mpr (.inr ha)) (ht a ha)
  rw [cleanL_fence, hR]
  have hform : ('\n' :: (lws ++ (cleanL c ++ tws) ++ ['\n'])) =
      ('\n' :: lws) ++ ((cleanL c ++ tws) ++ ['\n']) := by simp
  unfold trimJ
  rw [hform]
  rw [trimWith_prepend isWsJ ('\n' :: lws) _ (by
    intro a ha
    rcases List.mem_cons.mp ha with rfl | h2
    · rfl
    · exact hlJ a h2)]
  rw [trimWith_append isWsJ (cleanL c ++ tws) ['\n'] (by
    intro a ha
    rcases List.mem_singleton.mp ha with rfl
    rfl)]
  exact trimWith_append isWsJ (cleanL c) tws htJ

/-- C7 (amended): for every generation response text all of whose
Python-whitespace characters are standard JSON whitespace (space, tab, line
feed, carriage return), wrapping the text in Markdown code fences does not
change the outcome of the strip-fences-then-parse step; and a parse failure
routes the orchestrator to the fallback report. -/
theorem C7_fence_parse (c : List Char) :
    ((∀ a ∈ c, isWsPy a = true → isWsJ a = true) →
      jsonLoadsL (cleanL (fenceL c)) = jsonLoadsL (cleanL c))
  ∧ (∀ (env : GEnv) (vi : VideoAnalysis) (vp : Option String) (fs : List String)
      (t : String) r evs fs2,
      env.generateResult = .ok t → jsonLoadsL (cleanL t.data) = none →
      analyze_with_gemini env vi vp fs = some (r, evs, fs2) →
      r = get_fallback_analysis) := by
  constructor
  · intro hws
    unfold jsonLoadsL
    rw [trimJ_cleanL_fence c hws]
  · intro env vi vp fs t r evs fs2 hgen hparse h
    obtain ⟨handle, res, bevs, htb, hr, -, -⟩ :=
      analyze_spec env vi vp fs r evs fs2 h
    obtain ⟨-, -, hok⟩ := tryBody_spec env vi vp fs handle res bevs htb
    cases res with
    | error u => rw [hr]
    | ok j =>
      have hg := hok j rfl
      unfold genResOf at hg
      simp only [hgen, hparse] at hg
      exact Except.noConfusion hg

/-- Counterexample to C7 as stated: for the text consisting of a vertical tab
followed by the digit 1, the unfenced version parses (Python's strip removes
the vertical tab) but the fenced version does not (the JSON scanner rejects
the vertical tab), so fencing changes the parse outcome. -/
theorem C7_fence_parse_counterexample :
    jsonLoadsL (cleanL (fenceL ['\x0b', '1'])) ≠ jsonLoadsL (cleanL ['\x0b', '1']) := by
  intro h
  rw [show jsonLoadsL (cleanL (fenceL ['\x0b', '1'])) = none from rfl,
    show jsonLoadsL (cleanL ['\x0b', '1']) = some (PJson.num 1 0) from rfl] at h
  exact Option.noConfusion h

/-- Service behaviour for the C7 witness run: generation returns a text that
is not valid JSON. -/
def c7env : GEnv := ⟨.error (), [], .ok "oops"⟩

/-- Result triple of the C7 witness run. -/
def c7trip : PJson × List Ev × List String :=
  (analyze_with_gemini c7env wVi none []).getD (.null, [], [])

/-- Witness for the amended C7: fencing does not change the parse outcome of
a concrete ordinary JSON text, and a concrete unparsable generation response
routes to the fallback report. -/
theorem C7_fence_parse_witness :
    jsonLoadsL (cleanL (fenceL "[1]".data)) = jsonLoadsL (cleanL "[1]".data)
  ∧ c7trip.1 = get_fallback_analysis :=
  ⟨(C7_fence_parse "[1]".data).1 (by decide),
   (C7_fence_parse "[1]".data).2 c7env wVi none [] "oops"
     c7trip.1 c7trip.2.1 c7trip.2.2 rfl rfl rfl⟩
